import Mathlib

/-!
# ValutaTrade Hub — verification of the core trading logic

Shallow embedding of the repository's core: wallets and portfolios
(`core/models.py`), the buy/sell settlement flow (`core/usecases.py`,
`PortfolioManager`), the rate store (`_save_rate_pair`,
`RateManager._update_and_get_rate`), the CLI rate command
(`cli/interface.py`, `ValutaTradeCLI.get_rate`) and the parser service
(`parser_service/api_clients.py`, `updater.py`, `storage.py`).

Modelling conventions:
* Python floats are embedded as rationals (`ℚ`); the amounts and rates in the
  statements below are exact in both semantics.
* Python dicts are embedded as association lists (`assocFind` / `assocSet`):
  `assocSet` overwrites an existing binding in place and appends a missing
  binding at the end, exactly the insertion-order behaviour of a dict.
* Python exceptions are embedded as `Except TradeError`; an operation that
  raises is an operation that returns `.error` without having produced a new
  state (callers thread the pre-existing state on, as the interpreter does).
* File persistence is embedded as explicit state threading: each manager
  function takes the persisted store and returns the store as it is on disk
  afterwards, together with the list of observable side effects (`Event`):
  one `Event.portfolioWrite` per `_safe_save_portfolios` call and one
  `Event.rateLookup` per `RateManager.get_rate_with_info` call.
* `str.upper()` is embedded as `upper` (character-wise `Char.toUpper`), which
  agrees with Python on the ASCII currency codes used by the repository.
-/

/-- Embedding of Python's `str.upper()` for the ASCII strings used as
currency codes and pair keys. -/
def upper (s : String) : String := ⟨s.data.map Char.toUpper⟩

/-- The errors raised by the core: the typed exceptions from
`core/exceptions.py` plus the plain `ValueError`s raised inside
`core/models.py` (`Wallet.deposit`, `Wallet.withdraw`, the `balance` setter,
`Portfolio.add_currency`). -/
inductive TradeError where
  | invalidAmount (amount : ℚ)
  | currencyNotFound (code : String)
  | walletNotFound (code : String)
  | insufficientFunds (code : String) (available required : ℚ)
  | rateUnavailable (fromCode toCode : String)
  | apiRequestError
  | walletAmountNotPositive
  | walletInsufficient (available : ℚ)
  | negativeBalance
  | walletExists (code : String)
deriving DecidableEq, Repr

/-- Source `core/models.py` `Wallet`: a currency code and a balance. -/
structure Wallet where
  currency_code : String
  balance : ℚ
deriving DecidableEq, Repr

/-- The `balance` property setter of `Wallet`: rejects a negative value
(`ValueError("Баланс не может быть отрицательным")`). -/
def Wallet.setBalance (w : Wallet) (value : ℚ) : Except TradeError Wallet :=
  if value < 0 then .error .negativeBalance
  else .ok { w with balance := value }

/-- Source `Wallet.deposit`: the amount must be positive; the new balance goes
through the `balance` setter. -/
def Wallet.deposit (w : Wallet) (amount : ℚ) : Except TradeError Wallet :=
  if amount ≤ 0 then .error .walletAmountNotPositive
  else w.setBalance (w.balance + amount)

/-- Source `Wallet.withdraw`: the amount must be positive and at most the balance;
the new balance goes through the `balance` setter. -/
def Wallet.withdraw (w : Wallet) (amount : ℚ) : Except TradeError Wallet :=
  if amount ≤ 0 then .error .walletAmountNotPositive
  else if amount > w.balance then .error (.walletInsufficient w.balance)
  else w.setBalance (w.balance - amount)

/-- A deposit or withdraw request, for stating properties of operation
sequences on one wallet. -/
inductive WOp where
  | deposit (amount : ℚ)
  | withdraw (amount : ℚ)
deriving DecidableEq, Repr

/-- Attempt one operation on a wallet: a raised exception leaves the wallet
exactly as it was (both validations in `models.py` happen before the
mutation). -/
def applyWOp (w : Wallet) (op : WOp) : Wallet :=
  match op with
  | .deposit a => ((w.deposit a).toOption).getD w
  | .withdraw a => ((w.withdraw a).toOption).getD w

/-- Run a sequence of deposit/withdraw attempts from left to right. -/
def runWOps (w : Wallet) (ops : List WOp) : Wallet :=
  ops.foldl applyWOp w

/-- Dict lookup on an association list (Python `d.get(k)` / `k in d`). -/
def assocFind {κ α : Type} [DecidableEq κ] (l : List (κ × α)) (k : κ) : Option α :=
  match l with
  | [] => none
  | (k', v) :: rest => if k' = k then some v else assocFind rest k

/-- Dict assignment `d[k] = v` on an association list: overwrite in place,
or append when the key is new (dict insertion order). -/
def assocSet {κ α : Type} [DecidableEq κ] (l : List (κ × α)) (k : κ) (v : α) :
    List (κ × α) :=
  match l with
  | [] => [(k, v)]
  | (k', v') :: rest =>
    if k' = k then (k, v) :: rest else (k', v') :: assocSet rest k v

/-- Source `core/models.py` `Portfolio`: a user id and a dict of wallets keyed by
upper-case currency code. -/
structure Portfolio where
  user_id : Nat
  wallets : List (String × Wallet)
deriving DecidableEq, Repr

/-- Source `Portfolio.get_wallet`: upper-case the code, then dict lookup. -/
def Portfolio.getWallet (p : Portfolio) (code : String) : Option Wallet :=
  assocFind p.wallets (upper code)

/-- Source `Portfolio.add_currency`: fails when a wallet for the code already
exists, otherwise inserts a fresh zero-balance wallet and returns it. -/
def Portfolio.addCurrency (p : Portfolio) (code : String) :
    Except TradeError (Wallet × Portfolio) :=
  match assocFind p.wallets (upper code) with
  | some _ => .error (.walletExists (upper code))
  | none =>
    let w : Wallet := ⟨upper code, 0⟩
    .ok (w, { p with wallets := p.wallets ++ [(upper code, w)] })

/-- Write a wallet back into the portfolio dict under the upper-cased code.
In Python the wallet objects inside `portfolio._wallets` are mutated in
place; here every mutation of a looked-up wallet is followed by `setWallet`,
which reproduces that aliasing on the immutable embedding. -/
def Portfolio.setWallet (p : Portfolio) (code : String) (w : Wallet) : Portfolio :=
  { p with wallets := assocSet p.wallets (upper code) w }

/-- The codes registered by `core/currencies.py`
`_initialize_currency_registry` (nine fiat plus nine crypto currencies). -/
def registryCodes : List String :=
  ["USD", "EUR", "GBP", "JPY", "CNY", "RUB", "CHF", "CAD", "AUD",
   "BTC", "ETH", "BNB", "ADA", "SOL", "XRP", "DOT", "DOGE", "LTC"]

/-- Source `core/currencies.py` `get_currency`: upper-case the code and look it up
in the registry; here only the success/failure of that lookup matters. -/
def isKnownCurrency (code : String) : Bool := registryCodes.contains (upper code)

/-- The persisted `portfolios.json` contents: one portfolio per user id.
(The file is keyed by `str(user_id)`; `str` is injective on the ids, so the
store is keyed by the id itself here.) -/
abbrev PStore := List (Nat × Portfolio)

/-- Observable side effects of a manager call: a write of the portfolio
store (`_safe_save_portfolios`) or a rate lookup
(`RateManager.get_rate_with_info`). -/
inductive Event where
  | rateLookup
  | portfolioWrite
deriving DecidableEq, Repr

/-- The empty portfolio written by `PortfolioManager.create_portfolio`. -/
def emptyPortfolio (uid : Nat) : Portfolio := ⟨uid, []⟩

/-- Source `PortfolioManager.get_portfolio`: return the stored portfolio; when the
user has none, `create_portfolio` persists an empty one (one store write)
and that empty portfolio is returned. -/
def getPortfolio (store : PStore) (uid : Nat) : Portfolio × PStore × List Event :=
  match assocFind store uid with
  | some p => (p, store, [])
  | none => (emptyPortfolio uid, assocSet store uid (emptyPortfolio uid),
             [Event.portfolioWrite])

/-- The result dictionary of `PortfolioManager.buy_currency` (the fields the
spec talks about). -/
structure BuyResult where
  currency : String
  amount : ℚ
  rate : ℚ
  cost_usd : ℚ
  new_balance : ℚ
  remaining_usd : ℚ
deriving DecidableEq, Repr

/-- The result dictionary of `PortfolioManager.sell_currency`. -/
structure SellResult where
  currency : String
  amount : ℚ
  rate : ℚ
  revenue_usd : ℚ
  new_balance : ℚ
  new_usd_balance : ℚ
deriving DecidableEq, Repr

/-- The exception translation done by the `try/except` around the
`get_rate_with_info` call in `buy_currency`/`sell_currency`:
`CurrencyNotFoundError` and `RateUnavailableError` become
`RateUnavailableError(code, "USD")`, anything else becomes
`ApiRequestError`. -/
def mapRateError (code : String) : TradeError → TradeError
  | .currencyNotFound _ => .rateUnavailable code "USD"
  | .rateUnavailable _ _ => .rateUnavailable code "USD"
  | _ => .apiRequestError

/-- The outcome of `rate_mgr.get_rate_with_info(code, "USD")["rate"]` as seen
by `buy_currency`/`sell_currency`. The body of `RateManager.get_rate`, which
`get_rate_with_info` delegates to, is absent from the source tree (only its
callers are), so the settlement flow is parametrised by this lookup
function. -/
abbrev RateFn := String → String → Except TradeError ℚ

/-- Source `PortfolioManager.buy_currency` (usecases.py lines 189-272):
validate the amount, validate the currency code, load the portfolio (which
may persist a fresh empty one), require a USD wallet, look the rate up,
check funds, debit USD, credit the bought currency (creating its wallet when
absent, as `portfolio.add_currency` does), then persist the whole portfolio
with a single store write. The final balances are read back from the saved
portfolio, which is exactly what reading the shared wallet objects gives in
Python. -/
def buyCurrency (rateFn : RateFn) (store : PStore) (uid : Nat)
    (code : String) (amount : ℚ) :
    Except TradeError BuyResult × PStore × List Event :=
  if amount ≤ 0 then (.error (.invalidAmount amount), store, [])
  else if ¬ isKnownCurrency code then (.error (.currencyNotFound code), store, [])
  else
    match getPortfolio store uid with
    | (portfolio, store1, ev1) =>
      match portfolio.getWallet "USD" with
      | none => (.error (.walletNotFound "USD"), store1, ev1)
      | some usdW =>
        let ev2 := ev1 ++ [Event.rateLookup]
        match rateFn code "USD" with
        | .error e => (.error (mapRateError code e), store1, ev2)
        | .ok rate =>
          let cost := amount * rate
          if usdW.balance < cost then
            (.error (.insufficientFunds "USD" usdW.balance cost), store1, ev2)
          else
            match usdW.withdraw cost with
            | .error e => (.error e, store1, ev2)
            | .ok usdW' =>
              let p1 := portfolio.setWallet "USD" usdW'
              let target := (p1.getWallet code).getD ⟨upper code, 0⟩
              match target.deposit amount with
              | .error e => (.error e, store1, ev2)
              | .ok target' =>
                let p2 := p1.setWallet code target'
                let store2 := assocSet store1 uid p2
                (.ok ⟨code, amount, rate, cost,
                      (((p2.getWallet code).map Wallet.balance).getD 0),
                      (((p2.getWallet "USD").map Wallet.balance).getD 0)⟩,
                 store2, ev2 ++ [Event.portfolioWrite])

/-- Source `PortfolioManager.sell_currency` (usecases.py lines 274-357):
validate the amount and code, load the portfolio, require a wallet for the
sold currency, check funds, look the rate up, debit the sold currency,
credit USD (creating the USD wallet when absent), then persist the whole
portfolio with a single store write. -/
def sellCurrency (rateFn : RateFn) (store : PStore) (uid : Nat)
    (code : String) (amount : ℚ) :
    Except TradeError SellResult × PStore × List Event :=
  if amount ≤ 0 then (.error (.invalidAmount amount), store, [])
  else if ¬ isKnownCurrency code then (.error (.currencyNotFound code), store, [])
  else
    match getPortfolio store uid with
    | (portfolio, store1, ev1) =>
      match portfolio.getWallet code with
      | none => (.error (.walletNotFound code), store1, ev1)
      | some w =>
        if w.balance < amount then
          (.error (.insufficientFunds code w.balance amount), store1, ev1)
        else
          let ev2 := ev1 ++ [Event.rateLookup]
          match rateFn code "USD" with
          | .error e => (.error (mapRateError code e), store1, ev2)
          | .ok rate =>
            let revenue := amount * rate
            match w.withdraw amount with
            | .error e => (.error e, store1, ev2)
            | .ok w' =>
              let p1 := portfolio.setWallet code w'
              let usd := (p1.getWallet "USD").getD ⟨"USD", 0⟩
              match usd.deposit revenue with
              | .error e => (.error e, store1, ev2)
              | .ok usd' =>
                let p2 := p1.setWallet "USD" usd'
                let store2 := assocSet store1 uid p2
                (.ok ⟨code, amount, rate, revenue,
                      (((p2.getWallet code).map Wallet.balance).getD 0),
                      (((p2.getWallet "USD").map Wallet.balance).getD 0)⟩,
                 store2, ev2 ++ [Event.portfolioWrite])

/-- One record of the rate store `exchange_rates.json`:
`{rate, updated_at, source}`. Timestamps are rationals (seconds). -/
structure RateRecord where
  rate : ℚ
  updated_at : ℚ
  source : String
deriving DecidableEq, Repr

/-- The rate store: the `pairs` dict keyed by `"FROM_TO"` plus the global
`last_refresh` timestamp. The in-memory cache `_rates_cache` and the file
always coincide on the paths modelled here (`_safe_save_rates` refreshes the
cache on every write), so one state stands for both. -/
structure RatesData where
  pairs : List (String × RateRecord)
  last_refresh : ℚ
deriving DecidableEq, Repr

/-- The pair-key format `f"{from_code.upper()}_{to_code.upper()}"`. -/
def pairKey (fromCode toCode : String) : String :=
  upper fromCode ++ "_" ++ upper toCode

/-- Source `_save_rate_pair` (usecases.py lines 483-512): store the direct rate
with source `"api"`, then — when the rate is nonzero — the derived inverse
`1.0 / rate` with source `"calculated"`, and bump `last_refresh`. -/
def saveRatePair (raw : RatesData) (fromCode toCode : String) (rate : ℚ)
    (now : ℚ) : RatesData :=
  let pairs1 := assocSet raw.pairs (pairKey fromCode toCode) ⟨rate, now, "api"⟩
  let pairs2 :=
    if rate ≠ 0 then
      assocSet pairs1 (pairKey toCode fromCode) ⟨1 / rate, now, "calculated"⟩
    else pairs1
  { pairs := pairs2, last_refresh := now }

/-- Source `RateManager._is_rate_fresh`: the record's age against the TTL. -/
def isFresh (rec : RateRecord) (now ttl : ℚ) : Bool :=
  now - rec.updated_at ≤ ttl

/-- Source `rate_data["updated_at"] = datetime.now().isoformat()` on a record. -/
def touch (rec : RateRecord) (now : ℚ) : RateRecord :=
  { rec with updated_at := now }

/-- Source `RateManager._update_and_get_rate` (usecases.py lines 802-871): refresh
the requested pair through the stored `USD_X` records, touching their
`updated_at` stamps and saving, or fall back to the stub source
(`_fetch_rate_from_source`, whose randomly perturbed output is the
`fallback` parameter). `_extract_rate_from_data` on a well-typed record is
its `rate` field. -/
def updateAndGetRate (fallback : String → String → ℚ) (st : RatesData)
    (fromCode toCode : String) (now : ℚ) : ℚ × RatesData :=
  let fU := upper fromCode
  let tU := upper toCode
  let usdFromKey := "USD_" ++ fU
  let usdToKey := "USD_" ++ tU
  -- branch `from_code.upper() == "USD"` with the `USD_to` record present
  if fU = "USD" then
    match assocFind st.pairs usdToKey with
    | some rec =>
      let rec' := touch rec now
      (rec'.rate, { st with pairs := assocSet st.pairs usdToKey rec' })
    | none =>
      -- the cross section needs `USD_USD` too, so it cannot apply here
      (fallback fromCode toCode, st)
  else if tU = "USD" then
    match assocFind st.pairs usdFromKey with
    | some rec =>
      let rec' := touch rec now
      let st' := { st with pairs := assocSet st.pairs usdFromKey rec' }
      if rec'.rate ≠ 0 then (1 / rec'.rate, st')
      else
        -- rate 0: Python falls through to the cross section, which cannot
        -- produce a rate either (its `usd_to_from` is this same 0), and
        -- ends in the stub fetch
        (fallback fromCode toCode, st')
    | none => (fallback fromCode toCode, st)
  else
    -- cross section `X→Y` through USD
    match assocFind st.pairs usdFromKey, assocFind st.pairs usdToKey with
    | some fromRec, some toRec =>
      let fromRec' := touch fromRec now
      let toRec' := touch toRec now
      let pairs1 := assocSet (assocSet st.pairs usdFromKey fromRec') usdToKey toRec'
      if fromRec'.rate ≠ 0 then
        let cross := (1 / fromRec'.rate) * toRec'.rate
        let pairs2 := assocSet pairs1 (fU ++ "_" ++ tU) ⟨cross, now, "calculated"⟩
        (cross, { st with pairs := pairs2 })
      else
        (fallback fromCode toCode, { st with pairs := pairs1 })
    | _, _ => (fallback fromCode toCode, st)

/-- Modelled from the spec: `RateManager.get_rate` is called by
`get_rate_with_info`, by `get_portfolio_with_info` and by the CLI, but its
body is absent from the source tree. Contract from spec §4.1: normalise to
upper case; `from == to` returns `1.0` immediately with no lookup; then a
fresh direct record, a fresh inverse record (returning `1/rate`), a fresh
USD bridge (returning `(1/rate_base_from) * rate_base_to`), and finally a
refresh — the in-source `_update_and_get_rate`. The non-refresh paths only
read the store. -/
def getRate (fallback : String → String → ℚ) (ttl : ℚ) (st : RatesData)
    (fromCode toCode : String) (now : ℚ) : ℚ × RatesData :=
  let fU := upper fromCode
  let tU := upper toCode
  if fU = tU then (1, st)
  else
    match (assocFind st.pairs (fU ++ "_" ++ tU)).filter (fun r => isFresh r now ttl) with
    | some rec => (rec.rate, st)
    | none =>
      match (assocFind st.pairs (tU ++ "_" ++ fU)).filter (fun r => isFresh r now ttl) with
      | some rec => (1 / rec.rate, st)
      | none =>
        match (assocFind st.pairs ("USD_" ++ fU)).filter (fun r => isFresh r now ttl),
              (assocFind st.pairs ("USD_" ++ tU)).filter (fun r => isFresh r now ttl) with
        | some rf, some rt => ((1 / rf.rate) * rt.rate, st)
        | _, _ => updateAndGetRate fallback st fromCode toCode now

/-- What the CLI `get-rate` command reports: the exit code and the rate it
printed, if any. -/
structure CliRateOutcome where
  exitCode : Nat
  shownRate : Option ℚ
deriving DecidableEq, Repr

/-- Source `ValutaTradeCLI.get_rate` (cli/interface.py lines 199-234): upper-case
both arguments; an empty code exits with 1; equal codes print the rate
`1.000000` and exit 0 before the rate manager is ever consulted; otherwise
the rate manager is consulted (that branch, `self.rate_manager.get_rate`
plus `_load_rates`, is absent from the source tree and is abstracted by the
`lookup` parameter — any exception exits with 1). -/
def cliGetRate (lookup : RatesData → String → String → Except TradeError (ℚ × RatesData))
    (st : RatesData) (fromArg toArg : String) :
    CliRateOutcome × RatesData × List Event :=
  let fU := upper fromArg
  let tU := upper toArg
  if fU = "" ∨ tU = "" then (⟨1, none⟩, st, [])
  else if fU = tU then (⟨0, some 1⟩, st, [])
  else
    match lookup st fU tU with
    | .ok (r, st') => (⟨0, some r⟩, st', [Event.rateLookup])
    | .error _ => (⟨1, none⟩, st, [Event.rateLookup])

/-- One per-pair value built by `parser_service/api_clients.py`
`RateManager.get_all_rates`: `{'rate', 'source', 'timestamp', 'type'}`. -/
structure FetchedRate where
  rate : ℚ
  source : String
  timestamp : ℚ
  kind : String
deriving DecidableEq, Repr

/-- Source `RateManager.get_all_rates` (api_clients.py lines 93-138): the fiat
batch and the crypto batch are fetched independently — a source that fails
yields `{}` from its client and the other batch is still processed — and
merged into one dict, fiat entries first, crypto entries second (so crypto
wins a conflicting pair key). The two adapters' outputs are the
`fiatRates`/`cryptoRates` parameters; an adapter that failed contributes
`[]`. -/
def getAllRates (fiatRates cryptoRates : List (String × ℚ)) (now : ℚ) :
    List (String × FetchedRate) :=
  let withFiat := fiatRates.foldl
    (fun acc p => assocSet acc p.1 ⟨p.2, "exchangerate", now, "fiat"⟩) []
  cryptoRates.foldl
    (fun acc p => assocSet acc p.1 ⟨p.2, "coingecko", now, "crypto"⟩) withFiat

/-- One stored record of `parser_service/storage.py`
`RatesStorage.save_current_rates`. The updater passes the whole per-pair
dict of `get_all_rates` where a bare float is expected, so the stored
`rate` field holds that entire dict — kept here as `payload`. -/
structure StoredPair where
  payload : FetchedRate
  from_currency : String
  to_currency : String
  source : String
  updated_at : ℚ
deriving DecidableEq, Repr

/-- The parser service's view of `exchange_rates.json`. -/
structure ParserStore where
  pairs : List (String × StoredPair)
  last_refresh : Option ℚ
deriving DecidableEq, Repr

/-- Source `pair.split("_", 1)`: the part before the first underscore and the part
after it. -/
def splitPairKey (s : String) : String × String :=
  (s.takeWhile (fun c => c ≠ '_'), ((s.dropWhile (fun c => c ≠ '_')).drop 1))

/-- Source `RatesStorage.save_current_rates`: write every fetched pair into the
`pairs` dict and bump `last_refresh`; the whole file is then replaced
atomically. -/
def saveCurrentRates (store : ParserStore) (rates : List (String × FetchedRate))
    (source : String) (now : ℚ) : ParserStore :=
  let pairs' := rates.foldl
    (fun acc p =>
      assocSet acc p.1
        ⟨p.2, (splitPairKey p.1).1, (splitPairKey p.1).2, source, now⟩)
    store.pairs
  { pairs := pairs', last_refresh := some now }

/-- Source `RatesUpdater.update_rates` (updater.py lines 17-32): fetch everything
via `get_all_rates`; raise `RuntimeError` when the merged batch is empty;
otherwise persist the full batch with `save_current_rates` (the
`save_to_history` append does not affect the current-rates store and is not
modelled). Returns the new store and the reported `rates_count`. -/
def updateRates (store : ParserStore) (fiatRates cryptoRates : List (String × ℚ))
    (now : ℚ) : Except String (ParserStore × Nat) :=
  let allRates := getAllRates fiatRates cryptoRates now
  if allRates.isEmpty then .error "RuntimeError"
  else .ok (saveCurrentRates store allRates "api" now, allRates.length)

/-! ## Concrete states for the scenario witnesses -/

/-- A rate lookup that always succeeds with rate 50000 (concrete instance
for the scenario witnesses). -/
def rateFn50k : RateFn := fun _ _ => .ok 50000
/-- The scenario portfolio of claim C1: one USD wallet with balance 1000. -/
def scenarioPortfolio : Portfolio := ⟨1, [("USD", ⟨"USD", 1000⟩)]⟩
/-- The scenario portfolio store: user 1 owns `scenarioPortfolio`. -/
def scenarioStore : PStore := [(1, scenarioPortfolio)]
/-- A store whose user 1 holds only a BTC wallet (no USD wallet). -/
def noUsdStore : PStore := [(1, ⟨1, [("BTC", ⟨"BTC", 2⟩)]⟩)]
/-- A rate store with no pairs. -/
def emptyRates : RatesData := ⟨[], 0⟩
/-- A concrete stand-in for the rate-manager branch of the CLI command. -/
def lookupStub : RatesData → String → String → Except TradeError (ℚ × RatesData) :=
  fun st _ _ => .ok (2, st)
/-- A rate store holding one fresh BTC_USD record. -/
def btcUsdRates : RatesData := ⟨[("BTC_USD", ⟨50000, 0, "api"⟩)], 0⟩

/-! ## Association-list helper lemmas -/

theorem assocFind_assocSet_self {κ α : Type} [DecidableEq κ]
    (l : List (κ × α)) (k : κ) (v : α) :
    assocFind (assocSet l k v) k = some v := by
  induction l with
  | nil => simp [assocSet, assocFind]
  | cons hd tl ih =>
    obtain ⟨k', v'⟩ := hd
    by_cases h : k' = k <;> simp [assocSet, assocFind, h, ih]

theorem assocFind_assocSet_ne {κ α : Type} [DecidableEq κ]
    (l : List (κ × α)) (k q : κ) (v : α) (h : k ≠ q) :
    assocFind (assocSet l k v) q = assocFind l q := by
  induction l with
  | nil => simp [assocSet, assocFind, h]
  | cons hd tl ih =>
    obtain ⟨k', v'⟩ := hd
    by_cases hk : k' = k
    · subst hk
      simp [assocSet, assocFind, h]
    · simp [assocSet, assocFind, hk, ih]

theorem assocSet_ne_nil {κ α : Type} [DecidableEq κ]
    (l : List (κ × α)) (k : κ) (v : α) :
    assocSet l k v ≠ [] := by
  cases l with
  | nil => simp [assocSet]
  | cons hd tl =>
    obtain ⟨k', v'⟩ := hd
    by_cases h : k' = k <;> simp [assocSet, h]

theorem getPortfolio_some {store : PStore} {uid : Nat} {p : Portfolio}
    (h : assocFind store uid = some p) :
    getPortfolio store uid = (p, store, []) := by
  simp [getPortfolio, h]

theorem getPortfolio_none {store : PStore} {uid : Nat}
    (h : assocFind store uid = none) :
    getPortfolio store uid =
      (emptyPortfolio uid, assocSet store uid (emptyPortfolio uid),
       [Event.portfolioWrite]) := by
  simp [getPortfolio, h]

/-! ## Wallet lemmas (claims C3 and C4) -/

theorem applyWOp_nonneg (w : Wallet) (op : WOp) (h : 0 ≤ w.balance) :
    0 ≤ (applyWOp w op).balance := by
  cases op with
  | deposit a =>
    simp only [applyWOp, Wallet.deposit, Wallet.setBalance]
    split_ifs with h1 h2
    · simpa [Except.toOption] using h
    · simpa [Except.toOption] using h
    · simp only [Except.toOption, Option.getD_some]
      linarith
  | withdraw a =>
    simp only [applyWOp, Wallet.withdraw, Wallet.setBalance]
    split_ifs with h1 h2 h3
    · simpa [Except.toOption] using h
    · simpa [Except.toOption] using h
    · simpa [Except.toOption] using h
    · simp only [Except.toOption, Option.getD_some]
      linarith

theorem runWOps_nonneg (w : Wallet) (ops : List WOp) (h : 0 ≤ w.balance) :
    0 ≤ (runWOps w ops).balance := by
  induction ops generalizing w with
  | nil => simpa [runWOps] using h
  | cons op rest ih =>
    simpa [runWOps, List.foldl] using ih (applyWOp w op) (applyWOp_nonneg w op h)

/-- Claim C3: withdrawing strictly more than the balance always fails with
the insufficient-funds error and leaves the wallet unchanged; withdrawing
`0 < amount ≤ balance` succeeds and the new balance is the old balance minus
the amount. (Wallets in the system have non-negative balances, claim C4.) -/
theorem withdraw_insufficient_or_exact (w : Wallet) (amount : ℚ)
    (h0 : 0 ≤ w.balance) :
    (w.balance < amount →
      w.withdraw amount = .error (.walletInsufficient w.balance) ∧
      applyWOp w (.withdraw amount) = w) ∧
    (0 < amount → amount ≤ w.balance →
      w.withdraw amount = .ok ⟨w.currency_code, w.balance - amount⟩) := by
  constructor
  · intro hlt
    have heq : w.withdraw amount = .error (.walletInsufficient w.balance) := by
      unfold Wallet.withdraw
      rw [if_neg (by linarith), if_pos (by exact hlt)]
    exact ⟨heq, by simp [applyWOp, heq, Except.toOption]⟩
  · intro hpos hle
    unfold Wallet.withdraw Wallet.setBalance
    rw [if_neg (by linarith), if_neg (by simp only [not_lt]; exact hle),
        if_neg (by linarith)]

/-- Witness for C3 at a concrete wallet: balance 10, withdrawing 25 fails
and leaves the wallet, withdrawing 4 yields balance 6. -/
theorem withdraw_insufficient_or_exact_witness :
    (Wallet.withdraw ⟨"USD", 10⟩ 25 = .error (.walletInsufficient 10) ∧
     applyWOp ⟨"USD", 10⟩ (.withdraw 25) = ⟨"USD", 10⟩) ∧
    Wallet.withdraw ⟨"USD", 10⟩ 4 = .ok ⟨"USD", 6⟩ := by
  have h := withdraw_insufficient_or_exact ⟨"USD", 10⟩ 25 (by norm_num)
  have h' := withdraw_insufficient_or_exact ⟨"USD", 10⟩ 4 (by norm_num)
  refine ⟨h.1 (by norm_num), ?_⟩
  have := h'.2 (by norm_num) (by norm_num)
  simpa [show (10 : ℚ) - 4 = 6 by norm_num] using this

/-- Claim C4: starting from a non-negative balance, every sequence of
deposit/withdraw attempts keeps the balance non-negative, and both
operations reject a non-positive amount with the validation error (before
any mutation: the erroring operation returns no new wallet, and the
sequence semantics keeps the old one). -/
theorem wallet_balance_invariant (w : Wallet) (ops : List WOp) (a : ℚ)
    (h : 0 ≤ w.balance) :
    0 ≤ (runWOps w ops).balance ∧
    (a ≤ 0 →
      w.deposit a = .error .walletAmountNotPositive ∧
      w.withdraw a = .error .walletAmountNotPositive) := by
  refine ⟨runWOps_nonneg w ops h, fun ha => ⟨?_, ?_⟩⟩
  · unfold Wallet.deposit
    rw [if_pos ha]
  · unfold Wallet.withdraw
    rw [if_pos ha]

/-- Witness for C4: a concrete run that bottoms out at an over-withdrawal
still ends with a non-negative balance, and amount `-3` is rejected. -/
theorem wallet_balance_invariant_witness :
    0 ≤ (runWOps ⟨"USD", 5⟩ [.deposit 3, .withdraw 100, .withdraw 2]).balance ∧
    Wallet.deposit ⟨"USD", 5⟩ (-3) = .error .walletAmountNotPositive ∧
    Wallet.withdraw ⟨"USD", 5⟩ (-3) = .error .walletAmountNotPositive := by
  have h := wallet_balance_invariant ⟨"USD", 5⟩
    [.deposit 3, .withdraw 100, .withdraw 2] (-3) (by norm_num)
  exact ⟨h.1, h.2 (by norm_num)⟩

theorem getWallet_setWallet_self (p : Portfolio) (c : String) (w : Wallet) :
    (p.setWallet c w).getWallet c = some w := by
  simp [Portfolio.setWallet, Portfolio.getWallet, assocFind_assocSet_self]

theorem getWallet_setWallet_ne (p : Portfolio) (c q : String) (w : Wallet)
    (h : upper c ≠ upper q) :
    (p.setWallet c w).getWallet q = p.getWallet q := by
  simp [Portfolio.setWallet, Portfolio.getWallet, assocFind_assocSet_ne _ _ _ _ h]

/-! ## Upper-case evaluation facts for the codes used in the scenarios -/

theorem upper_USD : upper "USD" = "USD" := by decide

theorem upper_BTC : upper "BTC" = "BTC" := by decide

theorem upper_EUR : upper "EUR" = "EUR" := by decide

theorem isKnown_BTC : isKnownCurrency "BTC" = true := by decide

theorem isKnown_EUR : isKnownCurrency "EUR" = true := by decide

/-- Claim C1: a logged-in user holding a USD wallet with balance 1000.00
and no BTC wallet, where the rate lookup for ("BTC","USD") yields 50000.0:
`buy("BTC", 0.01)` succeeds, the cost is 500.00 USD, and afterwards the
persisted portfolio holds BTC balance 0.01 and USD balance 500.00. -/
theorem buy_btc_scenario (rateFn : RateFn) (store : PStore) (uid : Nat)
    (p : Portfolio) (w : Wallet)
    (hp : assocFind store uid = some p)
    (husd : p.getWallet "USD" = some w)
    (hbal : w.balance = 1000)
    (hbtc : p.getWallet "BTC" = none)
    (hrate : rateFn "BTC" "USD" = .ok 50000) :
    ∃ res store' evs,
      buyCurrency rateFn store uid "BTC" (1/100) = (.ok res, store', evs) ∧
      res.cost_usd = 500 ∧
      ∃ p', assocFind store' uid = some p' ∧
        (p'.getWallet "BTC").map Wallet.balance = some (1/100) ∧
        (p'.getWallet "USD").map Wallet.balance = some 500 := by
  obtain ⟨c, bal⟩ := w
  simp only [Wallet.balance] at hbal
  subst hbal
  unfold buyCurrency
  rw [if_neg (by norm_num), if_neg (by simp [isKnown_BTC]), getPortfolio_some hp]
  simp only [husd, hrate, Wallet.withdraw, Wallet.setBalance, Wallet.balance]
  rw [if_neg (by norm_num), if_neg (by norm_num), if_neg (by norm_num),
      if_neg (by norm_num)]
  dsimp only
  rw [getWallet_setWallet_ne _ _ _ _ (by decide), hbtc]
  simp only [Option.getD_none, Wallet.deposit, Wallet.setBalance, Wallet.balance]
  rw [if_neg (by norm_num), if_neg (by norm_num)]
  refine ⟨_, _, _, rfl, by norm_num, _, assocFind_assocSet_self _ _ _, ?_, ?_⟩
  · rw [getWallet_setWallet_self]
    norm_num
  · rw [getWallet_setWallet_ne _ _ _ _ (by decide), getWallet_setWallet_self]
    norm_num

/-- Witness for C1 at the concrete scenario state. -/
theorem buy_btc_scenario_witness :
    ∃ res store' evs,
      buyCurrency rateFn50k scenarioStore 1 "BTC" (1/100) = (.ok res, store', evs) ∧
      res.cost_usd = 500 ∧
      ∃ p', assocFind store' 1 = some p' ∧
        (p'.getWallet "BTC").map Wallet.balance = some (1/100) ∧
        (p'.getWallet "USD").map Wallet.balance = some 500 :=
  buy_btc_scenario rateFn50k scenarioStore 1 scenarioPortfolio ⟨"USD", 1000⟩
    (by rfl) (by decide) (by rfl) (by decide) (by rfl)

/-- Case shape of `buyCurrency` for a user whose portfolio entry exists:
every failure returns the store untouched with no portfolio write, and the
success path performs exactly one write, of the complete updated
portfolio. -/
theorem buyCurrency_shape (rateFn : RateFn) (store : PStore) (uid : Nat)
    (code : String) (amount : ℚ) (p : Portfolio)
    (hpre : assocFind store uid = some p) :
    (∃ e evs, buyCurrency rateFn store uid code amount = (.error e, store, evs) ∧
      Event.portfolioWrite ∉ evs) ∨
    (∃ res p', buyCurrency rateFn store uid code amount =
      (.ok res, assocSet store uid p', [Event.rateLookup, Event.portfolioWrite])) := by
  unfold buyCurrency
  rw [getPortfolio_some hpre]
  dsimp only
  split
  · exact Or.inl ⟨_, _, rfl, by simp⟩
  · split
    · exact Or.inl ⟨_, _, rfl, by simp⟩
    · split
      · exact Or.inl ⟨_, _, rfl, by simp⟩
      · split
        · exact Or.inl ⟨_, _, rfl, by simp⟩
        · split
          · exact Or.inl ⟨_, _, rfl, by simp⟩
          · split
            · exact Or.inl ⟨_, _, rfl, by simp⟩
            · split
              · exact Or.inl ⟨_, _, rfl, by simp⟩
              · exact Or.inr ⟨_, _, rfl⟩

/-- Case shape of `sellCurrency` for a user whose portfolio entry exists
(same statement as `buyCurrency_shape`). -/
theorem sellCurrency_shape (rateFn : RateFn) (store : PStore) (uid : Nat)
    (code : String) (amount : ℚ) (p : Portfolio)
    (hpre : assocFind store uid = some p) :
    (∃ e evs, sellCurrency rateFn store uid code amount = (.error e, store, evs) ∧
      Event.portfolioWrite ∉ evs) ∨
    (∃ res p', sellCurrency rateFn store uid code amount =
      (.ok res, assocSet store uid p', [Event.rateLookup, Event.portfolioWrite])) := by
  unfold sellCurrency
  rw [getPortfolio_some hpre]
  dsimp only
  split
  · exact Or.inl ⟨_, _, rfl, by simp⟩
  · split
    · exact Or.inl ⟨_, _, rfl, by simp⟩
    · split
      · exact Or.inl ⟨_, _, rfl, by simp⟩
      · split
        · exact Or.inl ⟨_, _, rfl, by simp⟩
        · split
          · exact Or.inl ⟨_, _, rfl, by simp⟩
          · split
            · exact Or.inl ⟨_, _, rfl, by simp⟩
            · split
              · exact Or.inl ⟨_, _, rfl, by simp⟩
              · exact Or.inr ⟨_, _, rfl⟩

/-- Claim C2 (amended): for every buy or sell by a user whose portfolio
entry already exists in the persisted store, a failure at any stage leaves
the persisted portfolio store unchanged with no store write, and a success
modifies the store by exactly one write — of the complete updated
portfolio. (For a user with no stored entry, the portfolio load step itself
persists a fresh empty entry before the trade is attempted; see the
counterexample.) -/
theorem trade_single_write (rateFn : RateFn) (store : PStore) (uid : Nat)
    (code : String) (amount : ℚ) (p : Portfolio)
    (hpre : assocFind store uid = some p) :
    (∀ e store' evs,
      buyCurrency rateFn store uid code amount = (.error e, store', evs) →
        store' = store ∧ Event.portfolioWrite ∉ evs) ∧
    (∀ res store' evs,
      buyCurrency rateFn store uid code amount = (.ok res, store', evs) →
        evs = [Event.rateLookup, Event.portfolioWrite] ∧
        ∃ p', store' = assocSet store uid p') ∧
    (∀ e store' evs,
      sellCurrency rateFn store uid code amount = (.error e, store', evs) →
        store' = store ∧ Event.portfolioWrite ∉ evs) ∧
    (∀ res store' evs,
      sellCurrency rateFn store uid code amount = (.ok res, store', evs) →
        evs = [Event.rateLookup, Event.portfolioWrite] ∧
        ∃ p', store' = assocSet store uid p') := by
  refine ⟨?_, ?_, ?_, ?_⟩
  · intro e store' evs h
    rcases buyCurrency_shape rateFn store uid code amount p hpre with
      ⟨e', evs', heq, hnw⟩ | ⟨res, p', heq⟩
    · rw [heq] at h
      simp only [Prod.mk.injEq] at h
      obtain ⟨-, h2, h3⟩ := h
      exact ⟨h2.symm, h3 ▸ hnw⟩
    · rw [heq] at h
      simp at h
  · intro res store' evs h
    rcases buyCurrency_shape rateFn store uid code amount p hpre with
      ⟨e', evs', heq, hnw⟩ | ⟨res', p', heq⟩
    · rw [heq] at h
      simp at h
    · rw [heq] at h
      simp only [Prod.mk.injEq] at h
      obtain ⟨-, h2, h3⟩ := h
      exact ⟨h3.symm, p', h2.symm⟩
  · intro e store' evs h
    rcases sellCurrency_shape rateFn store uid code amount p hpre with
      ⟨e', evs', heq, hnw⟩ | ⟨res, p', heq⟩
    · rw [heq] at h
      simp only [Prod.mk.injEq] at h
      obtain ⟨-, h2, h3⟩ := h
      exact ⟨h2.symm, h3 ▸ hnw⟩
    · rw [heq] at h
      simp at h
  · intro res store' evs h
    rcases sellCurrency_shape rateFn store uid code amount p hpre with
      ⟨e', evs', heq, hnw⟩ | ⟨res', p', heq⟩
    · rw [heq] at h
      simp at h
    · rw [heq] at h
      simp only [Prod.mk.injEq] at h
      obtain ⟨-, h2, h3⟩ := h
      exact ⟨h3.symm, p', h2.symm⟩

/-- Counterexample to claim C2 as stated: a failed buy by a user with no
stored portfolio entry (`WalletNotFound("USD")`, raised before any trade
arithmetic) leaves the persisted portfolio store changed — the load step
persisted a fresh empty portfolio for user 7. -/
theorem buy_failure_mutates_store_counterexample :
    buyCurrency rateFn50k [] 7 "BTC" 1 =
      (.error (.walletNotFound "USD"), [(7, emptyPortfolio 7)],
       [Event.portfolioWrite]) ∧
    ([(7, emptyPortfolio 7)] : PStore) ≠ [] := by
  constructor
  · rfl
  · decide

/-- Witness for the amended C2 at a concrete failing input: a buy with a
negative amount by a user whose entry exists leaves the store untouched and
performs no write. -/
theorem trade_single_write_witness :
    scenarioStore = scenarioStore ∧ Event.portfolioWrite ∉ ([] : List Event) :=
  (trade_single_write rateFn50k scenarioStore 1 "BTC" (-5) scenarioPortfolio
    (by rfl)).1 (.invalidAmount (-5)) scenarioStore [] (by rfl)

/-- Claim C8: selling a known currency with a positive amount when the user
has no wallet for it fails with `WalletNotFound(code)`, and afterwards the
persisted portfolio of that user still has no wallet for that currency —
the failed sell creates no wallet. -/
theorem sell_no_wallet_no_side_effect (rateFn : RateFn) (store : PStore)
    (uid : Nat) (code : String) (amount : ℚ)
    (hamt : 0 < amount) (hknown : isKnownCurrency code = true)
    (hnw : ∀ p, assocFind store uid = some p → p.getWallet code = none) :
    ∃ store' evs,
      sellCurrency rateFn store uid code amount =
        (.error (.walletNotFound code), store', evs) ∧
      (∀ p', assocFind store' uid = some p' → p'.getWallet code = none) := by
  cases hfind : assocFind store uid with
  | some p =>
    have hno := hnw p hfind
    unfold sellCurrency
    rw [if_neg (by linarith), if_neg (by simp [hknown]), getPortfolio_some hfind]
    dsimp only
    rw [hno]
    exact ⟨store, [], rfl, fun p' hp' => hnw p' hp'⟩
  | none =>
    unfold sellCurrency
    rw [if_neg (by linarith), if_neg (by simp [hknown]), getPortfolio_none hfind]
    dsimp only
    rw [show (emptyPortfolio uid).getWallet code = none from rfl]
    refine ⟨_, _, rfl, ?_⟩
    intro p' hp'
    rw [assocFind_assocSet_self] at hp'
    obtain rfl : emptyPortfolio uid = p' := Option.some.inj hp'
    rfl

/-- Witness for C8: user 1 holds only a USD wallet; `sell("EUR", 10)` fails
with `WalletNotFound("EUR")` and still no EUR wallet exists afterwards. -/
theorem sell_no_wallet_no_side_effect_witness :
    ∃ store' evs,
      sellCurrency rateFn50k scenarioStore 1 "EUR" 10 =
        (.error (.walletNotFound "EUR"), store', evs) ∧
      (∀ p', assocFind store' 1 = some p' → p'.getWallet "EUR" = none) :=
  sell_no_wallet_no_side_effect rateFn50k scenarioStore 1 "EUR" 10
    (by norm_num) (by decide)
    (fun p h => by
      obtain rfl : scenarioPortfolio = p := Option.some.inj h
      decide)

/-- Claim C10: a buy of a known currency with a positive amount by a user
with no USD wallet fails with `WalletNotFound("USD")` before any rate
lookup, every pre-existing portfolio entry is preserved verbatim (no wallet
created, no balance mutated — the only possible store change is the load
step's fresh empty entry), and in particular no USD wallet exists
afterwards. -/
theorem buy_no_usd_wallet (rateFn : RateFn) (store : PStore) (uid : Nat)
    (code : String) (amount : ℚ)
    (hamt : 0 < amount) (hknown : isKnownCurrency code = true)
    (husd : ∀ p, assocFind store uid = some p → p.getWallet "USD" = none) :
    ∃ store' evs,
      buyCurrency rateFn store uid code amount =
        (.error (.walletNotFound "USD"), store', evs) ∧
      Event.rateLookup ∉ evs ∧
      (∀ u q, assocFind store u = some q → assocFind store' u = some q) ∧
      (∀ p', assocFind store' uid = some p' →
        assocFind store uid = some p' ∨ p'.wallets = []) ∧
      (∀ p', assocFind store' uid = some p' → p'.getWallet "USD" = none) := by
  cases hfind : assocFind store uid with
  | some p =>
    have hno := husd p hfind
    unfold buyCurrency
    rw [if_neg (by linarith), if_neg (by simp [hknown]), getPortfolio_some hfind]
    dsimp only
    rw [hno]
    refine ⟨store, [], rfl, by simp, fun u q h => h,
      fun p' h => Or.inl (hfind.symm.trans h),
      fun p' hp' => husd p' hp'⟩
  | none =>
    unfold buyCurrency
    rw [if_neg (by linarith), if_neg (by simp [hknown]), getPortfolio_none hfind]
    dsimp only
    rw [show (emptyPortfolio uid).getWallet "USD" = none from rfl]
    refine ⟨_, _, rfl, by simp, ?_, ?_, ?_⟩
    · intro u q h
      by_cases hu : uid = u
      · subst hu
        rw [hfind] at h
        cases h
      · rw [assocFind_assocSet_ne _ _ _ _ hu]
        exact h
    · intro p' hp'
      rw [assocFind_assocSet_self] at hp'
      obtain rfl : emptyPortfolio uid = p' := Option.some.inj hp'
      exact Or.inr rfl
    · intro p' hp'
      rw [assocFind_assocSet_self] at hp'
      obtain rfl : emptyPortfolio uid = p' := Option.some.inj hp'
      rfl

/-- Witness for C10: buying BTC without a USD wallet fails with
`WalletNotFound("USD")`, performs no rate lookup, and changes nothing. -/
theorem buy_no_usd_wallet_witness :
    ∃ store' evs,
      buyCurrency rateFn50k noUsdStore 1 "BTC" 1 =
        (.error (.walletNotFound "USD"), store', evs) ∧
      Event.rateLookup ∉ evs ∧
      (∀ u q, assocFind noUsdStore u = some q → assocFind store' u = some q) ∧
      (∀ p', assocFind store' 1 = some p' →
        assocFind noUsdStore 1 = some p' ∨ p'.wallets = []) ∧
      (∀ p', assocFind store' 1 = some p' → p'.getWallet "USD" = none) :=
  buy_no_usd_wallet rateFn50k noUsdStore 1 "BTC" 1
    (by norm_num) (by decide)
    (fun p h => by
      obtain rfl : (⟨1, [("BTC", ⟨"BTC", 2⟩)]⟩ : Portfolio) = p := Option.some.inj h
      decide)

/-- Claim C5: for any currency code (upper-casing to a non-empty string),
the CLI `get-rate` with equal source and target prints rate 1.0 and exits 0
immediately: the rate store is returned untouched, no lookup event occurs,
and the result does not depend on the rate-manager lookup at all. -/
theorem cli_get_rate_same_currency
    (lookup : RatesData → String → String → Except TradeError (ℚ × RatesData))
    (st : RatesData) (x y : String)
    (hne : upper x ≠ "") (heq : upper x = upper y) :
    cliGetRate lookup st x y = (⟨0, some 1⟩, st, []) := by
  unfold cliGetRate
  rw [if_neg (not_or.mpr ⟨hne, heq ▸ hne⟩), if_pos heq]

/-- Witness for C5 at `get-rate usd USD` on the empty store. -/
theorem cli_get_rate_same_currency_witness :
    cliGetRate lookupStub emptyRates "usd" "USD" = (⟨0, some 1⟩, emptyRates, []) :=
  cli_get_rate_same_currency lookupStub emptyRates "usd" "USD"
    (by decide) (by decide)

/-- Claim C6: after `_save_rate_pair(A, B, r)` with a nonzero rate (and
distinct pair keys, as holds for any two distinct currency codes), the
stored direct record carries rate `r` with source `"api"` and the stored
derived inverse record carries exactly its reciprocal `1/r` with source
`"calculated"`; both stamps are fresh, and each rate is the reciprocal of
the other — `get_rate(A,B) = 1/get_rate(B,A)` at the store level. -/
theorem save_rate_pair_reciprocal (raw : RatesData) (a b : String) (r now : ℚ)
    (hr : r ≠ 0) (hk : pairKey a b ≠ pairKey b a) :
    ∃ dRec iRec,
      assocFind (saveRatePair raw a b r now).pairs (pairKey a b) = some dRec ∧
      assocFind (saveRatePair raw a b r now).pairs (pairKey b a) = some iRec ∧
      dRec.rate = r ∧ dRec.source = "api" ∧
      iRec.rate = 1 / dRec.rate ∧ dRec.rate = 1 / iRec.rate ∧
      iRec.source = "calculated" ∧
      dRec.updated_at = now ∧ iRec.updated_at = now := by
  refine ⟨⟨r, now, "api"⟩, ⟨1/r, now, "calculated"⟩, ?_, ?_, rfl, rfl, rfl, ?_,
    rfl, rfl, rfl⟩
  · unfold saveRatePair
    dsimp only
    rw [if_pos hr, assocFind_assocSet_ne _ _ _ _ (Ne.symm hk),
        assocFind_assocSet_self]
  · unfold saveRatePair
    dsimp only
    rw [if_pos hr, assocFind_assocSet_self]
  · exact (one_div_one_div r).symm

/-- Witness for C6 at the concrete pair ("BTC","USD") with rate 50000. -/
theorem save_rate_pair_reciprocal_witness :
    ∃ dRec iRec,
      assocFind (saveRatePair emptyRates "BTC" "USD" 50000 3).pairs
        (pairKey "BTC" "USD") = some dRec ∧
      assocFind (saveRatePair emptyRates "BTC" "USD" 50000 3).pairs
        (pairKey "USD" "BTC") = some iRec ∧
      dRec.rate = 50000 ∧ dRec.source = "api" ∧
      iRec.rate = 1 / dRec.rate ∧ dRec.rate = 1 / iRec.rate ∧
      iRec.source = "calculated" ∧
      dRec.updated_at = 3 ∧ iRec.updated_at = 3 :=
  save_rate_pair_reciprocal emptyRates "BTC" "USD" 50000 3
    (by norm_num) (by decide)

/-- Claim C7 (`spec-modelled`, see `getRate`): while the direct record for a
pair is within the TTL window, `get_rate` returns exactly its stored rate
and returns the store untouched — so two calls, at any two instants at
which the record is fresh and with no fetch in between, yield the identical
value and never mutate the record's `updated_at`. -/
theorem get_rate_fresh_idempotent (fallback : String → String → ℚ) (ttl : ℚ)
    (st : RatesData) (a b : String) (rec : RateRecord) (t1 t2 : ℚ)
    (hne : upper a ≠ upper b)
    (hfind : assocFind st.pairs (upper a ++ "_" ++ upper b) = some rec)
    (h1 : isFresh rec t1 ttl = true) (h2 : isFresh rec t2 ttl = true) :
    getRate fallback ttl st a b t1 = (rec.rate, st) ∧
    getRate fallback ttl st a b t2 = (rec.rate, st) := by
  constructor
  · unfold getRate
    rw [if_neg hne, hfind]
    dsimp only [Option.filter]
    rw [if_pos h1]
  · unfold getRate
    rw [if_neg hne, hfind]
    dsimp only [Option.filter]
    rw [if_pos h2]

/-- Witness for C7: two reads at seconds 10 and 20 with TTL 300. -/
theorem get_rate_fresh_idempotent_witness :
    getRate (fun _ _ => 1) 300 btcUsdRates "BTC" "USD" 10 = (50000, btcUsdRates) ∧
    getRate (fun _ _ => 1) 300 btcUsdRates "BTC" "USD" 20 = (50000, btcUsdRates) :=
  get_rate_fresh_idempotent (fun _ _ => 1) 300 btcUsdRates "BTC" "USD"
    ⟨50000, 0, "api"⟩ 10 20 (by decide) (by decide)
    (by norm_num [isFresh]) (by norm_num [isFresh])

/-! ## Fold lemmas for the parser-service claims -/

theorem assocFind_mem {κ α : Type} [DecidableEq κ] (l : List (κ × α)) (k : κ)
    (v : α) (h : assocFind l k = some v) : (k, v) ∈ l := by
  induction l with
  | nil => simp [assocFind] at h
  | cons hd tl ih =>
    obtain ⟨k', v'⟩ := hd
    by_cases hk : k' = k
    · subst hk
      simp [assocFind] at h
      subst h
      exact List.mem_cons_self _ _
    · simp only [assocFind, if_neg hk] at h
      exact List.mem_cons_of_mem _ (ih h)

theorem mem_map_fst_assocSet {κ α : Type} [DecidableEq κ] (l : List (κ × α))
    (k q : κ) (v : α) :
    q ∈ (assocSet l k v).map Prod.fst ↔ q ∈ l.map Prod.fst ∨ q = k := by
  induction l with
  | nil => simp [assocSet]
  | cons hd tl ih =>
    obtain ⟨k', v'⟩ := hd
    by_cases hk : k' = k
    · subst hk
      simp [assocSet]
      tauto
    · simp only [assocSet, if_neg hk, List.map_cons, List.mem_cons, ih]
      tauto

theorem nodup_keys_assocSet {κ α : Type} [DecidableEq κ] (l : List (κ × α))
    (k : κ) (v : α) (h : (l.map Prod.fst).Nodup) :
    ((assocSet l k v).map Prod.fst).Nodup := by
  induction l with
  | nil => simp [assocSet]
  | cons hd tl ih =>
    obtain ⟨k', v'⟩ := hd
    simp only [List.map_cons, List.nodup_cons] at h
    obtain ⟨hnot, hnd⟩ := h
    by_cases hk : k' = k
    · subst hk
      simp [assocSet, List.nodup_cons]
      exact ⟨fun x hx => hnot (List.mem_map.mpr ⟨(k', x), hx, rfl⟩), hnd⟩
    · simp only [assocSet, if_neg hk, List.map_cons, List.nodup_cons]
      refine ⟨?_, ih hnd⟩
      intro hmem
      rcases (mem_map_fst_assocSet tl k k' v).mp hmem with h' | h'
      · exact hnot h'
      · exact hk h' 

theorem nodup_keys_foldl_set {κ α β : Type} [DecidableEq κ] (f : κ × α → β)
    (l : List (κ × α)) (acc : List (κ × β)) (h : (acc.map Prod.fst).Nodup) :
    ((l.foldl (fun a p => assocSet a p.1 (f p)) acc).map Prod.fst).Nodup := by
  induction l generalizing acc with
  | nil => exact h
  | cons hd tl ih =>
    simp only [List.foldl_cons]
    exact ih _ (nodup_keys_assocSet _ _ _ h)

theorem assocFind_foldl_set_of_not_key {κ α β : Type} [DecidableEq κ]
    (f : κ × α → β) (l : List (κ × α)) (acc : List (κ × β)) (k : κ)
    (h : ∀ p ∈ l, p.1 ≠ k) :
    assocFind (l.foldl (fun a p => assocSet a p.1 (f p)) acc) k =
      assocFind acc k := by
  induction l generalizing acc with
  | nil => rfl
  | cons hd tl ih =>
    have hhd : hd.1 ≠ k := h hd (List.mem_cons_self _ _)
    have htl : ∀ p ∈ tl, p.1 ≠ k := fun p hp => h p (List.mem_cons_of_mem _ hp)
    simp only [List.foldl_cons]
    rw [ih _ htl, assocFind_assocSet_ne _ _ _ _ hhd]

theorem assocFind_foldl_set_of_mem {κ α β : Type} [DecidableEq κ]
    (f : κ × α → β) (l : List (κ × α)) (acc : List (κ × β)) (k : κ) (v : α)
    (hnd : (l.map Prod.fst).Nodup) (hmem : (k, v) ∈ l) :
    assocFind (l.foldl (fun a p => assocSet a p.1 (f p)) acc) k =
      some (f (k, v)) := by
  induction l generalizing acc with
  | nil => cases hmem
  | cons hd tl ih =>
    simp only [List.map_cons, List.nodup_cons] at hnd
    obtain ⟨hnotin, hnd'⟩ := hnd
    simp only [List.foldl_cons]
    rcases List.mem_cons.mp hmem with heq | hmem'
    · subst heq
      rw [assocFind_foldl_set_of_not_key f tl _ k ?_, assocFind_assocSet_self]
      intro p hp hpk
      exact hnotin (List.mem_map.mpr ⟨p, hp, hpk⟩)
    · exact ih _ hnd' hmem' 

theorem foldl_assocSet_ne_nil_acc {κ α β : Type} [DecidableEq κ]
    (f : κ × α → β) (l : List (κ × α)) (acc : List (κ × β)) (h : acc ≠ []) :
    l.foldl (fun a p => assocSet a p.1 (f p)) acc ≠ [] := by
  induction l generalizing acc with
  | nil => exact h
  | cons hd tl ih =>
    simp only [List.foldl_cons]
    exact ih _ (assocSet_ne_nil _ _ _)

theorem foldl_assocSet_ne_nil_list {κ α β : Type} [DecidableEq κ]
    (f : κ × α → β) (l : List (κ × α)) (acc : List (κ × β)) (h : l ≠ []) :
    l.foldl (fun a p => assocSet a p.1 (f p)) acc ≠ [] := by
  cases l with
  | nil => exact absurd rfl h
  | cons hd tl =>
    simp only [List.foldl_cons]
    exact foldl_assocSet_ne_nil_acc f tl _ (assocSet_ne_nil _ _ _)

/-- Claim C9: when the fiat source fails (its fetch yields no data, i.e. the
empty batch) and the crypto source succeeds, the crypto fetch is not
aborted: the update succeeds and the full crypto batch is merged and
persisted — every fetched pair is stored with its rate, its per-source
provenance tag and the updater's `"api"` source stamp. The overall update
raises only when every source failed, i.e. exactly when the merged batch is
empty. -/
theorem partial_source_tolerance (store : ParserStore)
    (cryptoRates : List (String × ℚ)) (now : ℚ)
    (hnd : (cryptoRates.map Prod.fst).Nodup) (hcne : cryptoRates ≠ []) :
    (∃ store' n,
      updateRates store [] cryptoRates now = .ok (store', n) ∧
      ∀ k r, (k, r) ∈ cryptoRates →
        ∃ rec, assocFind store'.pairs k = some rec ∧
          rec.payload.rate = r ∧ rec.payload.source = "coingecko" ∧
          rec.source = "api" ∧ rec.updated_at = now) ∧
    (∀ fiat2 crypto2 : List (String × ℚ),
      (∃ err, updateRates store fiat2 crypto2 now = .error err) ↔
        (fiat2 = [] ∧ crypto2 = [])) := by
  constructor
  · have hall : getAllRates [] cryptoRates now =
        cryptoRates.foldl
          (fun acc p => assocSet acc p.1 ⟨p.2, "coingecko", now, "crypto"⟩) [] := rfl
    have hnonnil : getAllRates [] cryptoRates now ≠ [] := by
      rw [hall]
      exact foldl_assocSet_ne_nil_list _ _ _ hcne
    unfold updateRates
    rw [if_neg (by simpa [List.isEmpty_iff] using hnonnil)]
    refine ⟨_, _, rfl, ?_⟩
    intro k r hmem
    have h1 : assocFind (getAllRates [] cryptoRates now) k =
        some ⟨r, "coingecko", now, "crypto"⟩ := by
      rw [hall]
      exact assocFind_foldl_set_of_mem _ _ _ _ _ hnd hmem
    have h1m : (k, (⟨r, "coingecko", now, "crypto"⟩ : FetchedRate)) ∈
        getAllRates [] cryptoRates now := assocFind_mem _ _ _ h1
    have h1nd : ((getAllRates [] cryptoRates now).map Prod.fst).Nodup := by
      rw [hall]
      exact nodup_keys_foldl_set _ _ _ (by simp)
    refine ⟨⟨⟨r, "coingecko", now, "crypto"⟩, (splitPairKey k).1,
      (splitPairKey k).2, "api", now⟩, ?_, rfl, rfl, rfl, rfl⟩
    unfold saveCurrentRates
    dsimp only
    exact assocFind_foldl_set_of_mem _ _ _ _ _ h1nd h1m
  · intro fiat2 crypto2
    constructor
    · rintro ⟨err, herr⟩
      unfold updateRates at herr
      by_cases hempty : (getAllRates fiat2 crypto2 now).isEmpty
      · have h0 : getAllRates fiat2 crypto2 now = [] := by
          simpa [List.isEmpty_iff] using hempty
        constructor
        · by_contra hf
          exact (foldl_assocSet_ne_nil_acc _ crypto2 _
            (foldl_assocSet_ne_nil_list _ _ _ hf)) h0
        · by_contra hc
          exact (foldl_assocSet_ne_nil_list _ crypto2 _ hc) h0
      · rw [if_neg hempty] at herr
        cases herr
    · rintro ⟨rfl, rfl⟩
      exact ⟨"RuntimeError", rfl⟩

/-- Witness for C9: fiat source failed, one crypto pair fetched. -/
theorem partial_source_tolerance_witness :
    (∃ store' n,
      updateRates ⟨[], none⟩ [] [("USD_BTC", 50000)] 9 = .ok (store', n) ∧
      ∀ k r, (k, r) ∈ [("USD_BTC", (50000 : ℚ))] →
        ∃ rec, assocFind store'.pairs k = some rec ∧
          rec.payload.rate = r ∧ rec.payload.source = "coingecko" ∧
          rec.source = "api" ∧ rec.updated_at = 9) ∧
    (∀ fiat2 crypto2 : List (String × ℚ),
      (∃ err, updateRates ⟨[], none⟩ fiat2 crypto2 9 = .error err) ↔
        (fiat2 = [] ∧ crypto2 = [])) :=
  partial_source_tolerance ⟨[], none⟩ [("USD_BTC", 50000)] 9
    (by decide) (by decide)
